import Mathlib

/-
Shallow embedding of the PulseIntel websocket relay
(src/pulseintel_websocket_service.py): the per-symbol VWAP/CVD
aggregation engine, the subscription registry, the broadcast dispatcher,
the frontend control-message handler and the upstream reconnect loop.
Python floats are modelled as rationals; Python dicts as
functions into Option; Python sets as Finsets.
-/

namespace PulseIntel

abbrev Subscriber := ℕ
abbrev Channel := String

/-- A parsed trade event after all `float(...)` conversions succeeded
(fields of the `trade` branch of `broadcast_to_subscribers`,
lines 110-114).  `side` is kept raw: the code only compares it
to the literal string `buy`. -/
structure Trade where
  price : ℚ
  quantity : ℚ
  side : Option String
  high : ℚ
  low : ℚ
  deriving DecidableEq, Repr

/-- Per-symbol aggregation state, one entry of `vwap_cvd_state`
(lines 28-32); the defaultdict default is `⟨0, 0, 0⟩`. -/
structure AggState where
  cumulative_tpv : ℚ
  cumulative_volume : ℚ
  cvd : ℚ
  deriving DecidableEq, Repr

/-- The defaultdict default value of `vwap_cvd_state` (lines 28-32). -/
def AggState.init : AggState := ⟨0, 0, 0⟩

/-- `typical_price = (high + low + price) / 3` (line 118). -/
def typical_price (t : Trade) : ℚ := (t.high + t.low + t.price) / 3

/-- One aggregation update for a parsed trade (lines 117-124):
`cumulative_tpv += typical_price * volume`,
`cumulative_volume += volume`, and
`cvd += volume` when `side == "buy"`, else `cvd -= volume`. -/
def updateAgg (s : AggState) (t : Trade) : AggState :=
  { cumulative_tpv := s.cumulative_tpv + typical_price t * t.quantity
    cumulative_volume := s.cumulative_volume + t.quantity
    cvd := if t.side = some "buy" then s.cvd + t.quantity else s.cvd - t.quantity }

/-- `vwap = cumulative_tpv / cumulative_volume if cumulative_volume else 0`
(line 127; Python truthiness: zero is falsy). -/
def vwapOf (s : AggState) : ℚ :=
  if s.cumulative_volume = 0 then 0 else s.cumulative_tpv / s.cumulative_volume

/-- Folding a full trade history for one symbol through the incremental
engine, starting from the lazily created default state. -/
def runAgg (ts : List Trade) : AggState := ts.foldl updateAgg AggState.init

/-- Spec-side from-scratch recomputation: sum of typical price × quantity
over the full history (for the refinement statement of the vwap claim). -/
def batchTPV (ts : List Trade) : ℚ :=
  (ts.map (fun t => typical_price t * t.quantity)).sum

/-- Spec-side from-scratch cumulative volume. -/
def batchVolume (ts : List Trade) : ℚ := (ts.map (fun t => t.quantity)).sum

/-- Spec-side from-scratch vwap: `batchTPV / batchVolume`, 0 when the
cumulative volume is 0. -/
def batchVwap (ts : List Trade) : ℚ :=
  if batchVolume ts = 0 then 0 else batchTPV ts / batchVolume ts

/-- Spec-side signed sum of quantities: + for side `buy`, − for side
`sell`, 0 otherwise (the spec only speaks of buy/sell sides). -/
def specSignedSum (ts : List Trade) : ℚ :=
  (ts.map (fun t =>
    if t.side = some "buy" then t.quantity
    else if t.side = some "sell" then -t.quantity else 0)).sum

lemma foldl_updateAgg_tpv (ts : List Trade) (s : AggState) :
    (ts.foldl updateAgg s).cumulative_tpv = s.cumulative_tpv + batchTPV ts := by
  induction ts generalizing s with
  | nil => simp [batchTPV]
  | cons t ts ih =>
      simp only [List.foldl_cons, ih, batchTPV, List.map_cons, List.sum_cons, updateAgg]
      ring

lemma foldl_updateAgg_volume (ts : List Trade) (s : AggState) :
    (ts.foldl updateAgg s).cumulative_volume = s.cumulative_volume + batchVolume ts := by
  induction ts generalizing s with
  | nil => simp [batchVolume]
  | cons t ts ih =>
      simp only [List.foldl_cons, ih, batchVolume, List.map_cons, List.sum_cons, updateAgg]
      ring

lemma foldl_updateAgg_cvd (ts : List Trade) (s : AggState)
    (h : ∀ t ∈ ts, t.side = some "buy" ∨ t.side = some "sell") :
    (ts.foldl updateAgg s).cvd = s.cvd + specSignedSum ts := by
  induction ts generalizing s with
  | nil => simp [specSignedSum]
  | cons t ts ih =>
      have ht := h t (List.mem_cons_self t ts)
      have hts : ∀ u ∈ ts, u.side = some "buy" ∨ u.side = some "sell" :=
        fun u hu => h u (List.mem_cons_of_mem t hu)
      simp only [List.foldl_cons, ih _ hts, specSignedSum, List.map_cons, List.sum_cons,
        updateAgg]
      rcases ht with hb | hs
      · simp [hb]; ring
      · have hne : t.side ≠ some "buy" := by simp [hs]
        simp [hs, hne]; ring

/-- C1: after any sequence of well-formed trade events, the incremental
vwap equals the from-scratch recomputation
`batchTPV / batchVolume` over the full history, and is 0 whenever the
cumulative volume is 0 (no division error, no drift). Since the claim
quantifies over every prefix of a history and every prefix is itself a
list of trades, quantifying over all lists covers it. -/
theorem vwap_incremental_eq_batch (ts : List Trade) :
    vwapOf (runAgg ts) = batchVwap ts ∧
      ((runAgg ts).cumulative_volume = 0 → vwapOf (runAgg ts) = 0) := by
  have hv : (runAgg ts).cumulative_volume = batchVolume ts := by
    simpa [AggState.init] using foldl_updateAgg_volume ts AggState.init
  have htpv : (runAgg ts).cumulative_tpv = batchTPV ts := by
    simpa [AggState.init] using foldl_updateAgg_tpv ts AggState.init
  constructor
  · simp [vwapOf, batchVwap, hv, htpv]
  · intro h0
    simp [vwapOf, h0]

/-- Witness for C1 on the concrete two-trade history of the spec's
scenarios 1-2. -/
theorem vwap_incremental_eq_batch_witness :
    vwapOf (runAgg [⟨100, 2, some "buy", 101, 99⟩, ⟨110, 1, some "sell", 111, 109⟩]) =
        batchVwap [⟨100, 2, some "buy", 101, 99⟩, ⟨110, 1, some "sell", 111, 109⟩] ∧
      ((runAgg [⟨100, 2, some "buy", 101, 99⟩,
          ⟨110, 1, some "sell", 111, 109⟩]).cumulative_volume = 0 →
        vwapOf (runAgg [⟨100, 2, some "buy", 101, 99⟩, ⟨110, 1, some "sell", 111, 109⟩]) = 0) :=
  vwap_incremental_eq_batch
    [⟨100, 2, some "buy", 101, 99⟩, ⟨110, 1, some "sell", 111, 109⟩]

/-- C2: after N events whose side is `buy` or `sell`, the cvd equals the
signed sum of quantities (+ for buy, − for sell). -/
theorem cvd_eq_signed_sum (ts : List Trade)
    (h : ∀ t ∈ ts, t.side = some "buy" ∨ t.side = some "sell") :
    (runAgg ts).cvd = specSignedSum ts := by
  simpa [AggState.init] using foldl_updateAgg_cvd ts AggState.init h

/-- Witness for C2: scenarios 1-2 give cvd = 2 − 1 = 1. -/
theorem cvd_eq_signed_sum_witness :
    (runAgg [⟨100, 2, some "buy", 101, 99⟩, ⟨110, 1, some "sell", 111, 109⟩]).cvd =
      specSignedSum [⟨100, 2, some "buy", 101, 99⟩, ⟨110, 1, some "sell", 111, 109⟩] :=
  cvd_eq_signed_sum
    [⟨100, 2, some "buy", 101, 99⟩, ⟨110, 1, some "sell", 111, 109⟩]
    (by intro t ht; fin_cases ht <;> simp)

/-- C9: any side other than the exact string `buy` — `sell`, a missing
side, or any unrecognized value — decrements the cumulative delta by the
trade's quantity (the code's `else` branch at line 124 treats everything
that is not `buy` as a sell). -/
theorem non_buy_side_decrements_cvd (s : AggState) (t : Trade)
    (h : t.side ≠ some "buy") :
    (updateAgg s t).cvd = s.cvd - t.quantity := by
  simp [updateAgg, h]

/-- Witness for C9: a trade with an unrecognized side `hold` decrements
cvd by its quantity. -/
theorem non_buy_side_decrements_cvd_witness :
    (updateAgg AggState.init ⟨100, 2, some "hold", 101, 99⟩).cvd =
      AggState.init.cvd - (2 : ℚ) :=
  non_buy_side_decrements_cvd AggState.init ⟨100, 2, some "hold", 101, 99⟩ (by simp)

/-! ## Subscription registry -/

/-- The `subscriptions` dict: channel → set of subscriber handles
(line 15). `none` models an absent key; the defaultdict default is the
empty set. -/
abbrev SubsMap := Channel → Option (Finset Subscriber)

/-- The `client_subscriptions` dict: subscriber → set of channels
(line 19). -/
abbrev ClientSubsMap := Subscriber → Option (Finset Channel)

/-- The two dicts holding the subscription registry. -/
structure Registry where
  subscriptions : SubsMap
  client_subscriptions : ClientSubsMap

/-- The initial registry: both dicts empty. -/
def Registry.empty : Registry := ⟨fun _ => none, fun _ => none⟩

/-- The `subscribe` branch (lines 52-54):
`subscriptions[channel].add(websocket)` and
`client_subscriptions[websocket].add(channel)` — defaultdict indexing
creates a (now nonempty) entry when the key was absent. -/
def subscribe (r : Registry) (ws : Subscriber) (ch : Channel) : Registry :=
  { subscriptions := fun c =>
      if c = ch then some (insert ws ((r.subscriptions ch).getD ∅))
      else r.subscriptions c
    client_subscriptions := fun w =>
      if w = ws then some (insert ch ((r.client_subscriptions ws).getD ∅))
      else r.client_subscriptions w }

/-- The `unsubscribe` branch (lines 59-64): each removal is guarded by a
membership test on `.get(…, set())` (which creates no entry), and the
trailing `len(client_subscriptions[websocket])` at line 64 is a
defaultdict access that creates an empty inverse entry when absent. -/
def unsubscribe (r : Registry) (ws : Subscriber) (ch : Channel) : Registry :=
  let subs : SubsMap := fun c =>
    if c = ch then
      match r.subscriptions ch with
      | some s => if ws ∈ s then some (s.erase ws) else some s
      | none => none
    else r.subscriptions c
  let cs : ClientSubsMap := fun w =>
    if w = ws then
      match r.client_subscriptions ws with
      | some s => if ch ∈ s then some (s.erase ch) else some s
      | none => none
    else r.client_subscriptions w
  { subscriptions := subs
    client_subscriptions := fun w =>
      if w = ws then some ((cs ws).getD ∅) else cs w }

/-- The disconnect cleanup in the `finally` block (lines 75-81): for each
channel in the client's inverse entry, remove the client from that
channel's forward set (guarded, creating nothing when absent), then
delete the client's inverse entry if present. Iteration over the
distinct channels is modelled pointwise. -/
def Registry.drop (r : Registry) (ws : Subscriber) : Registry :=
  { subscriptions := fun c =>
      match r.client_subscriptions ws with
      | some chans =>
          if c ∈ chans then
            match r.subscriptions c with
            | some s => some (s.erase ws)
            | none => none
          else r.subscriptions c
      | none => r.subscriptions c
    client_subscriptions := fun w => if w = ws then none else r.client_subscriptions w }

/-- Mutual consistency of the two maps: a subscriber is in channel C's
forward set iff C is in the subscriber's inverse set (absent entries
read as the empty set). -/
def Consistent (r : Registry) : Prop :=
  ∀ (ws : Subscriber) (ch : Channel),
    ws ∈ (r.subscriptions ch).getD ∅ ↔ ch ∈ (r.client_subscriptions ws).getD ∅

lemma consistent_empty : Consistent Registry.empty := by
  intro ws ch
  simp [Registry.empty]

lemma mem_subscribe_subs (r : Registry) (ws : Subscriber) (ch : Channel)
    (w : Subscriber) (c : Channel) :
    w ∈ ((subscribe r ws ch).subscriptions c).getD ∅ ↔
      w ∈ (r.subscriptions c).getD ∅ ∨ (c = ch ∧ w = ws) := by
  by_cases hc : c = ch
  · subst hc
    simp [subscribe]
    tauto
  · simp [subscribe, hc]

lemma mem_subscribe_cs (r : Registry) (ws : Subscriber) (ch : Channel)
    (w : Subscriber) (c : Channel) :
    c ∈ ((subscribe r ws ch).client_subscriptions w).getD ∅ ↔
      c ∈ (r.client_subscriptions w).getD ∅ ∨ (c = ch ∧ w = ws) := by
  by_cases hw : w = ws
  · subst hw
    simp [subscribe]
    tauto
  · simp [subscribe, hw]

lemma mem_unsubscribe_subs (r : Registry) (ws : Subscriber) (ch : Channel)
    (w : Subscriber) (c : Channel) :
    w ∈ ((unsubscribe r ws ch).subscriptions c).getD ∅ ↔
      w ∈ (r.subscriptions c).getD ∅ ∧ ¬(c = ch ∧ w = ws) := by
  by_cases hc : c = ch
  · subst hc
    rcases hs : r.subscriptions c with _ | s
    · simp [unsubscribe, hs]
    · by_cases hm : ws ∈ s
      · simp [unsubscribe, hs, hm, Finset.mem_erase]
        tauto
      · simp only [unsubscribe, hs, if_pos rfl, if_neg hm, Option.getD_some]
        constructor
        · intro hw
          exact ⟨hw, fun hx => hm (hx.2 ▸ hw)⟩
        · exact fun hx => hx.1
  · simp [unsubscribe, hc]

lemma mem_unsubscribe_cs (r : Registry) (ws : Subscriber) (ch : Channel)
    (w : Subscriber) (c : Channel) :
    c ∈ ((unsubscribe r ws ch).client_subscriptions w).getD ∅ ↔
      c ∈ (r.client_subscriptions w).getD ∅ ∧ ¬(c = ch ∧ w = ws) := by
  by_cases hw : w = ws
  · subst hw
    rcases hs : r.client_subscriptions w with _ | s
    · simp [unsubscribe, hs]
    · by_cases hm : ch ∈ s
      · simp [unsubscribe, hs, hm, Finset.mem_erase]
        tauto
      · simp only [unsubscribe, hs, if_pos rfl, if_neg hm, Option.getD_some]
        constructor
        · intro hcm
          exact ⟨hcm, fun hx => hm (hx.1 ▸ hcm)⟩
        · exact fun hx => hx.1
  · simp [unsubscribe, hw]

lemma mem_drop_subs (r : Registry) (ws : Subscriber)
    (w : Subscriber) (c : Channel) :
    w ∈ ((r.drop ws).subscriptions c).getD ∅ ↔
      w ∈ (r.subscriptions c).getD ∅ ∧
        ¬(w = ws ∧ c ∈ (r.client_subscriptions ws).getD ∅) := by
  rcases hcs : r.client_subscriptions ws with _ | chans
  · simp [Registry.drop, hcs]
  · by_cases hm : c ∈ chans
    · rcases hs : r.subscriptions c with _ | s
      · simp [Registry.drop, hcs, hm, hs]
      · simp [Registry.drop, hcs, hm, hs, Finset.mem_erase]
        tauto
    · simp [Registry.drop, hcs, hm]

lemma mem_drop_cs (r : Registry) (ws : Subscriber)
    (w : Subscriber) (c : Channel) :
    c ∈ ((r.drop ws).client_subscriptions w).getD ∅ ↔
      c ∈ (r.client_subscriptions w).getD ∅ ∧ w ≠ ws := by
  by_cases hw : w = ws
  · simp [Registry.drop, hw]
  · simp [Registry.drop, hw]

lemma consistent_subscribe (r : Registry) (ws : Subscriber) (ch : Channel)
    (h : Consistent r) : Consistent (subscribe r ws ch) := by
  intro w c
  rw [mem_subscribe_subs, mem_subscribe_cs, h w c]

lemma consistent_unsubscribe (r : Registry) (ws : Subscriber) (ch : Channel)
    (h : Consistent r) : Consistent (unsubscribe r ws ch) := by
  intro w c
  rw [mem_unsubscribe_subs, mem_unsubscribe_cs, h w c]

lemma consistent_drop (r : Registry) (ws : Subscriber)
    (h : Consistent r) : Consistent (r.drop ws) := by
  intro w c
  rw [mem_drop_subs, mem_drop_cs, h w c]
  by_cases hw : w = ws
  · subst hw
    tauto
  · tauto

/-- C5: every completed registry operation — subscribe, unsubscribe, or
the disconnect cleanup drop — preserves mutual consistency of the
forward and inverse maps. -/
theorem registry_ops_preserve_consistency (r : Registry) (ws : Subscriber) (ch : Channel)
    (h : Consistent r) :
    Consistent (subscribe r ws ch) ∧ Consistent (unsubscribe r ws ch) ∧
      Consistent (r.drop ws) :=
  ⟨consistent_subscribe r ws ch h, consistent_unsubscribe r ws ch h,
    consistent_drop r ws h⟩

/-- Witness for C5 at the concrete empty registry. -/
theorem registry_ops_preserve_consistency_witness :
    Consistent (subscribe Registry.empty 0 "trade:BTCUSDT") ∧
      Consistent (unsubscribe Registry.empty 0 "trade:BTCUSDT") ∧
      Consistent (Registry.empty.drop 0) :=
  registry_ops_preserve_consistency Registry.empty 0 "trade:BTCUSDT" consistent_empty

lemma sub_unsub_subs_eval (r : Registry) (c : Subscriber) (X : Channel)
    (h : c ∉ (r.subscriptions X).getD ∅) :
    (unsubscribe (subscribe r c X) c X).subscriptions X =
      some ((r.subscriptions X).getD ∅) := by
  have hmem : c ∈ insert c ((r.subscriptions X).getD ∅) := Finset.mem_insert_self c _
  simp only [unsubscribe, subscribe, if_pos rfl, hmem, if_true]
  rw [Finset.erase_insert h]

/-- C6 counterexample: starting from the empty registry,
`subscribe(0, X)` then `unsubscribe(0, X)` leaves the forward map with an
entry for X mapping to the empty set — the code never deletes a
channel's dict entry when its subscriber set becomes empty (the
defaultdict keeps the emptied set), so the entry-removal conjunct of the
claim is false. -/
theorem subscribe_unsubscribe_counterexample :
    ¬ (∀ (r : Registry) (c : Subscriber) (X : Channel),
        c ∉ (r.subscriptions X).getD ∅ →
        X ∉ (r.client_subscriptions c).getD ∅ →
        (c ∉ (((unsubscribe (subscribe r c X) c X)).subscriptions X).getD ∅ ∧
         X ∉ (((unsubscribe (subscribe r c X) c X)).client_subscriptions c).getD ∅ ∧
         ((((unsubscribe (subscribe r c X) c X)).subscriptions X).getD ∅ = ∅ →
           ((unsubscribe (subscribe r c X) c X)).subscriptions X = none))) := by
  intro hclaim
  have h := hclaim Registry.empty 0 "trade:BTCUSDT"
    (by simp [Registry.empty]) (by simp [Registry.empty])
  have heval : (unsubscribe (subscribe Registry.empty 0 "trade:BTCUSDT")
      0 "trade:BTCUSDT").subscriptions "trade:BTCUSDT" = some ∅ := by
    have := sub_unsub_subs_eval Registry.empty 0 "trade:BTCUSDT" (by simp [Registry.empty])
    simpa [Registry.empty] using this
  have h3 := h.2.2 (by simp [heval])
  rw [heval] at h3
  exact Option.noConfusion h3

/-- C6 (amended): from a state where c is not subscribed to X,
`subscribe(c, X)` then `unsubscribe(c, X)` leaves no trace of the pair —
c is absent from X's forward set and X is absent from c's inverse
entry — but the forward-map entry for X is NOT removed when its
subscriber set becomes empty: it persists, mapping to its prior set
(the empty set when the registry started without X). -/
theorem subscribe_unsubscribe_no_trace (r : Registry) (c : Subscriber) (X : Channel)
    (h1 : c ∉ (r.subscriptions X).getD ∅)
    (h2 : X ∉ (r.client_subscriptions c).getD ∅) :
    c ∉ (((unsubscribe (subscribe r c X) c X)).subscriptions X).getD ∅ ∧
      X ∉ (((unsubscribe (subscribe r c X) c X)).client_subscriptions c).getD ∅ ∧
      ((unsubscribe (subscribe r c X) c X)).subscriptions X =
        some ((r.subscriptions X).getD ∅) := by
  refine ⟨?_, ?_, sub_unsub_subs_eval r c X h1⟩
  · rw [mem_unsubscribe_subs]
    tauto
  · rw [mem_unsubscribe_cs]
    tauto

/-- Witness for the amended C6 at the empty registry. -/
theorem subscribe_unsubscribe_no_trace_witness :
    (0 : Subscriber) ∉
        (((unsubscribe (subscribe Registry.empty 0 "cvd:X") 0 "cvd:X")).subscriptions
          "cvd:X").getD ∅ ∧
      "cvd:X" ∉
        (((unsubscribe (subscribe Registry.empty 0 "cvd:X")
            0 "cvd:X")).client_subscriptions 0).getD ∅ ∧
      ((unsubscribe (subscribe Registry.empty 0 "cvd:X") 0 "cvd:X")).subscriptions "cvd:X" =
        some ((Registry.empty.subscriptions "cvd:X").getD ∅) :=
  subscribe_unsubscribe_no_trace Registry.empty 0 "cvd:X"
    (by simp [Registry.empty]) (by simp [Registry.empty])

/-! ## Frontend control-message handler -/

/-- Acknowledgments the handler can send back (lines 49, 57, 66). -/
inductive Response where
  | invalidFormat
  | subscribed (ch : Channel)
  | unsubscribed (ch : Channel)
  deriving DecidableEq, Repr

/-- Python truthiness of `data.get(...)` for a string-valued field:
falsy when the key is absent (`None`) or the string is empty. -/
def truthy (o : Option String) : Bool :=
  match o with
  | none => false
  | some s => !s.isEmpty

/-- One iteration of the control-message loop of `handle_frontend_client`
(lines 44-66) on an already-decoded message: `if not action or not
channel` answers the invalid-format error; `subscribe` / `unsubscribe`
mutate the registry and answer success; any other action falls through
the `if`/`elif` with no response. Every branch continues the loop — the
connection is never closed by the handler itself. -/
def handleControl (r : Registry) (ws : Subscriber) (action channel : Option String) :
    Registry × Option Response :=
  if truthy action = false ∨ truthy channel = false then
    (r, some Response.invalidFormat)
  else if action = some "subscribe" then
    (subscribe r ws (channel.getD ""), some (Response.subscribed (channel.getD "")))
  else if action = some "unsubscribe" then
    (unsubscribe r ws (channel.getD ""), some (Response.unsubscribed (channel.getD "")))
  else (r, none)

/-- C10 counterexample: a control message carrying both fields, with the
(non-subscribe, non-unsubscribe) action `""`, is answered with the
invalid-format error acknowledgment — Python's truthiness test `if not
action` treats the present-but-empty action as missing — refuting the
claim that no acknowledgment at all is sent for such messages. -/
theorem unknown_action_counterexample :
    ¬ (∀ (r : Registry) (ws : Subscriber) (action channel : Option String),
        action ≠ none → channel ≠ none →
        action ≠ some "subscribe" → action ≠ some "unsubscribe" →
        handleControl r ws action channel = (r, none)) := by
  intro hclaim
  have h := hclaim Registry.empty 0 (some "") (some "trade:BTCUSDT")
    (by simp) (by simp) (by simp) (by simp)
  have h2 := congrArg Prod.snd h
  simp [handleControl, truthy, show "".isEmpty = true from rfl] at h2

/-- C10 (amended): for every control message whose action and channel
fields are present and non-empty (truthy) and whose action is neither
`subscribe` nor `unsubscribe`, the handler sends no acknowledgment,
leaves the registry unchanged, and the loop continues (the connection
stays open). -/
theorem unknown_action_silent (r : Registry) (ws : Subscriber)
    (action channel : Option String)
    (ha : truthy action = true) (hc : truthy channel = true)
    (h1 : action ≠ some "subscribe") (h2 : action ≠ some "unsubscribe") :
    handleControl r ws action channel = (r, none) := by
  simp [handleControl, ha, hc, h1, h2]

/-- Witness for the amended C10: action `ping` gets no response and
leaves the registry untouched. -/
theorem unknown_action_silent_witness :
    handleControl Registry.empty 0 (some "ping") (some "trade:BTCUSDT") =
      (Registry.empty, none) :=
  unknown_action_silent Registry.empty 0 (some "ping") (some "trade:BTCUSDT")
    (by decide) (by decide) (by simp) (by simp)

/-! ## Upstream event processing and broadcast dispatch -/

/-- A JSON field value as seen by `float(...)`: either a value the
conversion accepts (a number or numeric string), or one it rejects with
`ValueError`/`TypeError`. -/
inductive RawField where
  | num (q : ℚ)
  | bad
  deriving DecidableEq, Repr

/-- `float(data.get(k))` for a required field: a missing key gives
`float(None)` (`TypeError`), an unparseable value raises too. -/
def parseField : Option RawField → Option ℚ
  | some (RawField.num q) => some q
  | some RawField.bad => none
  | none => none

/-- `float(data.get(k, price))` for `high`/`low` (lines 113-114): an
absent key falls back to the already-parsed price. -/
def parseDefault (f : Option RawField) (dflt : ℚ) : Option ℚ :=
  match f with
  | none => some dflt
  | some (RawField.num q) => some q
  | some RawField.bad => none

/-- An upstream event as decoded from JSON, before any `float`
conversion. -/
structure EventMsg where
  type : Option String
  symbol : Option String
  price : Option RawField
  quantity : Option RawField
  side : Option String
  high : Option RawField
  low : Option RawField
  deriving DecidableEq, Repr

/-- The field-parsing prefix of the trade branch (lines 110-114); all
`float` conversions run before any state mutation, so a failure
anywhere yields no update at all. -/
def parseTrade (e : EventMsg) : Option Trade :=
  match parseField e.price with
  | none => none
  | some p =>
    match parseField e.quantity with
    | none => none
    | some q =>
      match parseDefault e.high p, parseDefault e.low p with
      | some h, some l => some ⟨p, q, e.side, h, l⟩
      | some _, none => none
      | none, _ => none

/-- Which publish site a fan-out belongs to. -/
inductive Kind where
  | raw
  | vwapKind
  | cvdKind
  deriving DecidableEq, Repr

/-- Observable effects of the relay, in program order. -/
inductive Action where
  | statsIncr (channel : Channel)
  | fanout (channel : Channel) (clients : Finset Subscriber) (kind : Kind)
  | aggUpdate (symbol : String)
  | sleep (seconds : ℕ)
  deriving DecidableEq

/-- Python `subscriptions.get(channel, set())` (lines 102, 131, 141): a
lookup that never creates an entry; returns the snapshot and the
unchanged dict. -/
def dictGet (subs : SubsMap) (ch : Channel) : Finset Subscriber × SubsMap :=
  ((subs ch).getD ∅, subs)

/-- One publish site (lines 101-105, 130-137, 140-147): snapshot the
channel's current subscriber set via `.get`, then `asyncio.gather` the
sends only when the set is nonempty. -/
def publishRun (subs : SubsMap) (ch : Channel) (k : Kind) : List Action × SubsMap :=
  let s := dictGet subs ch
  (if s.1 = ∅ then [] else [Action.fanout ch s.1 k], s.2)

/-- The actions a publish site emits. -/
def publishActs (subs : SubsMap) (ch : Channel) (k : Kind) : List Action :=
  (publishRun subs ch k).1

/-- The `vwap_cvd_state` defaultdict (lines 28-32), read through its
default. -/
abbrev AggMap := String → AggState

/-- `broadcast_to_subscribers` (lines 85-150): drop events without a
truthy type or symbol; count the message; fan the raw event out; for
trades, parse the numeric fields, mutate the symbol's aggregation state
and fan out the derived vwap and cvd messages — a `float` failure is
caught by the `except (ValueError, TypeError)` and skips everything
after the raw fan-out.  Returns the updated aggregation map and the
emitted actions in program order. -/
def broadcast (subs : SubsMap) (agg : AggMap) (e : EventMsg) : AggMap × List Action :=
  if truthy e.type = false ∨ truthy e.symbol = false then (agg, [])
  else
    let msg_type := e.type.getD ""
    let symbol := e.symbol.getD ""
    let raw_channel := msg_type ++ ":" ++ symbol
    let rawActs := publishActs subs raw_channel Kind.raw
    if msg_type = "trade" then
      match parseTrade e with
      | none => (agg, Action.statsIncr raw_channel :: rawActs)
      | some t =>
          (fun s => if s = symbol then updateAgg (agg symbol) t else agg s,
            Action.statsIncr raw_channel :: rawActs ++
              Action.aggUpdate symbol ::
                (publishActs subs ("vwap:" ++ symbol) Kind.vwapKind ++
                  publishActs subs ("cvd:" ++ symbol) Kind.cvdKind))
    else (agg, Action.statsIncr raw_channel :: rawActs)

/-- C7: publishing to a channel whose subscriber set is empty performs
zero sends, raises nothing, and neither creates nor mutates any state —
the `.get(channel, set())` lookup creates no dict entry and the
`if clients:` guard skips the fan-out. -/
theorem publish_empty_no_sends (subs : SubsMap) (ch : Channel) (k : Kind)
    (h : (subs ch).getD ∅ = ∅) :
    publishRun subs ch k = ([], subs) := by
  simp [publishRun, dictGet, h]

/-- Witness for C7: publishing on the empty subscription dict. -/
theorem publish_empty_no_sends_witness :
    publishRun (fun _ => none) "trade:BTCUSDT" Kind.raw = ([], fun _ => none) :=
  publish_empty_no_sends (fun _ => none) "trade:BTCUSDT" Kind.raw (by simp)

/-- A field the claim calls malformed: missing, or present but not
parseable as a number. -/
def missingOrBad (f : Option RawField) : Prop := f = none ∨ f = some RawField.bad

instance (f : Option RawField) : Decidable (missingOrBad f) := by
  unfold missingOrBad
  infer_instance

/-- Actions produced only downstream of a successful aggregation update:
the update itself and the vwap/cvd fan-outs. -/
def isDerivedAct : Action → Bool
  | Action.aggUpdate _ => true
  | Action.fanout _ _ Kind.vwapKind => true
  | Action.fanout _ _ Kind.cvdKind => true
  | _ => false

lemma mem_publishActs {subs : SubsMap} {ch : Channel} {k : Kind} {a : Action}
    (h : a ∈ publishActs subs ch k) :
    a = Action.fanout ch ((subs ch).getD ∅) k := by
  unfold publishActs publishRun dictGet at h
  by_cases he : (subs ch).getD ∅ = ∅
  · simp [he] at h
  · simp [he] at h
    simpa using h

lemma parseTrade_eq_none_iff (e : EventMsg) :
    parseTrade e = none ↔
      (missingOrBad e.price ∨ missingOrBad e.quantity ∨
        e.high = some RawField.bad ∨ e.low = some RawField.bad) := by
  rcases e with ⟨ty, sym, pr, qt, sd, hi, lo⟩
  rcases pr with _ | (p | _) <;> rcases qt with _ | (q | _) <;>
    rcases hi with _ | (h | _) <;> rcases lo with _ | (l | _) <;>
      simp [parseTrade, parseField, parseDefault, missingOrBad]

/-- C3 counterexample: a trade event with `high` and `low` missing but
`price` and `quantity` well-formed is NOT skipped — the code defaults
the missing `high`/`low` to the price (`data.get("high", price)`) and
performs the aggregation update, so the state changes (cumulative
volume becomes 2), refuting the claim that a missing `high` or `low`
leaves the state unchanged. -/
theorem skip_malformed_counterexample :
    ¬ (∀ (subs : SubsMap) (agg : AggMap) (e : EventMsg),
        e.type = some "trade" →
        (missingOrBad e.price ∨ missingOrBad e.quantity ∨
          missingOrBad e.high ∨ missingOrBad e.low) →
        (broadcast subs agg e).1 = agg) := by
  intro hclaim
  have h := hclaim (fun _ => none) (fun _ => AggState.init)
    ⟨some "trade", some "BTCUSDT", some (RawField.num 100), some (RawField.num 2),
      some "buy", none, none⟩
    rfl (Or.inr (Or.inr (Or.inl (Or.inl rfl))))
  have h2 := congrArg (fun m => (m "BTCUSDT").cumulative_volume) h
  simp [broadcast, truthy, parseTrade, parseField, parseDefault, updateAgg,
    AggState.init, show ("trade".isEmpty = false) from rfl,
    show ("BTCUSDT".isEmpty = false) from rfl] at h2

/-- C3 (amended): the aggregation update is skipped entirely — state
unchanged, no aggregation update and no vwap/cvd fan-out, and no
exception reaches the caller (the model is total) — exactly when
`price` or `quantity` is missing or unparseable, or `high` or `low` is
present but unparseable; a missing `high` or `low` instead defaults to
the parsed price and the update proceeds. -/
theorem skip_malformed (subs : SubsMap) (agg : AggMap) (e : EventMsg)
    (h : missingOrBad e.price ∨ missingOrBad e.quantity ∨
      e.high = some RawField.bad ∨ e.low = some RawField.bad) :
    parseTrade e = none ∧ (broadcast subs agg e).1 = agg ∧
      (broadcast subs agg e).2.all (fun a => !isDerivedAct a) = true := by
  have hp : parseTrade e = none := (parseTrade_eq_none_iff e).mpr h
  refine ⟨hp, ?_⟩
  unfold broadcast
  by_cases h0 : truthy e.type = false ∨ truthy e.symbol = false
  · simp [h0]
  · simp only [h0, if_false]
    by_cases ht : e.type.getD "" = "trade"
    · simp only [ht, if_true, hp]
      constructor
      · trivial
      · simp only [List.all_cons, List.all_eq_true, Bool.and_eq_true]
        refine ⟨rfl, ?_⟩
        intro a ha
        rw [mem_publishActs ha]
        rfl
    · simp only [ht, if_false]
      constructor
      · trivial
      · simp only [List.all_cons, List.all_eq_true, Bool.and_eq_true]
        refine ⟨rfl, ?_⟩
        intro a ha
        rw [mem_publishActs ha]
        rfl

/-- Witness for the amended C3: a trade event with `quantity` missing is
skipped — state unchanged and no derived actions. -/
theorem skip_malformed_witness :
    parseTrade ⟨some "trade", some "BTCUSDT", some (RawField.num 100), none,
        some "buy", some (RawField.num 101), some (RawField.num 99)⟩ = none ∧
      (broadcast (fun _ => none) (fun _ => AggState.init)
        ⟨some "trade", some "BTCUSDT", some (RawField.num 100), none,
          some "buy", some (RawField.num 101), some (RawField.num 99)⟩).1 =
        (fun _ => AggState.init) ∧
      (broadcast (fun _ => none) (fun _ => AggState.init)
        ⟨some "trade", some "BTCUSDT", some (RawField.num 100), none,
          some "buy", some (RawField.num 101), some (RawField.num 99)⟩).2.all
        (fun a => !isDerivedAct a) = true :=
  skip_malformed (fun _ => none) (fun _ => AggState.init)
    ⟨some "trade", some "BTCUSDT", some (RawField.num 100), none,
      some "buy", some (RawField.num 101), some (RawField.num 99)⟩
    (Or.inr (Or.inl (Or.inl rfl)))

lemma mem_vwap_cvd_tail (subs : SubsMap) (sy : String) {a : Action}
    (ha : a ∈ publishActs subs ("vwap:" ++ sy) Kind.vwapKind ++
      publishActs subs ("cvd:" ++ sy) Kind.cvdKind) :
    (∀ ch cl, a ≠ Action.fanout ch cl Kind.raw) ∧ ∀ s2, a ≠ Action.aggUpdate s2 := by
  rcases List.mem_append.1 ha with h | h <;> rw [mem_publishActs h] <;> simp

/-- C4 counterexample: for a well-formed trade event with one subscriber
on its `trade:<symbol>` channel, the raw fan-out appears at position 1
of the action trace and the aggregation update at position 2 — the code
broadcasts the raw message (lines 100-105) before updating the symbol's
cumulative state (lines 108-124), refuting the claim that the
aggregation happens first. -/
theorem agg_before_raw_dispatch_counterexample :
    ¬ (∀ (subs : SubsMap) (agg : AggMap) (e : EventMsg),
        e.type = some "trade" →
        ∀ (i j : ℕ) (sym ch : String) (cl : Finset Subscriber),
          (broadcast subs agg e).2.get? i = some (Action.aggUpdate sym) →
          (broadcast subs agg e).2.get? j = some (Action.fanout ch cl Kind.raw) →
          i < j) := by
  intro hclaim
  have h := hclaim (fun c => if c = "trade:BTCUSDT" then some {0} else none)
    (fun _ => AggState.init)
    ⟨some "trade", some "BTCUSDT", some (RawField.num 100), some (RawField.num 2),
      some "buy", some (RawField.num 101), some (RawField.num 99)⟩ rfl
    2 1 "BTCUSDT" "trade:BTCUSDT" {0} (by decide) (by decide)
  omega

/-- C4 (amended): for every trade event, the raw fan-out to the
`trade:<symbol>` channel occurs strictly before the aggregation update
in the emitted action trace — the event is dispatched to its raw
subscribers first and only then folded into the cumulative state (from
which the vwap/cvd messages are derived and fanned out). -/
lemma index_lt_of_mid {α : Type} {pre post : List α} {mid x y : α} {i j : ℕ}
    (hi : (pre ++ mid :: post).get? i = some x)
    (hj : (pre ++ mid :: post).get? j = some y)
    (hy_pre : y ∉ pre) (hy_post : y ∉ post)
    (hx_post : x ∉ post) (hx_mid : x ≠ mid) : i < j := by
  have hjlen : j = pre.length := by
    rcases lt_or_ge j pre.length with h | h
    · exact absurd (List.get?_mem ((List.get?_append h).symm.trans hj)) hy_pre
    · rcases Nat.eq_or_lt_of_le h with h2 | h2
      · omega
      · exfalso
        rw [List.get?_append_right h] at hj
        have hsub : j - pre.length = (j - pre.length - 1) + 1 := by omega
        rw [hsub, List.get?_cons_succ] at hj
        exact hy_post (List.get?_mem hj)
  have hilen : i < pre.length := by
    rcases lt_or_ge i pre.length with h | h
    · exact h
    · exfalso
      rw [List.get?_append_right h] at hi
      rcases Nat.eq_or_lt_of_le h with h2 | h2
      · have h02 : i - pre.length = 0 := by omega
        rw [h02] at hi
        simp only [List.get?_cons_zero, Option.some_inj] at hi
        exact hx_mid hi.symm
      · have hsub : i - pre.length = (i - pre.length - 1) + 1 := by omega
        rw [hsub, List.get?_cons_succ] at hi
        exact hx_post (List.get?_mem hi)
  omega

theorem raw_dispatch_before_agg (subs : SubsMap) (agg : AggMap) (e : EventMsg)
    (i j : ℕ) (sym ch : String) (cl : Finset Subscriber)
    (hi : (broadcast subs agg e).2.get? i = some (Action.fanout ch cl Kind.raw))
    (hj : (broadcast subs agg e).2.get? j = some (Action.aggUpdate sym)) :
    i < j := by
  unfold broadcast at hi hj
  by_cases h0 : truthy e.type = false ∨ truthy e.symbol = false
  · simp [h0] at hj
  · simp only [h0, if_false] at hi hj
    by_cases ht : e.type.getD "" = "trade"
    · simp only [ht, if_true] at hi hj
      rcases hp : parseTrade e with _ | t
      · exfalso
        simp only [hp] at hj
        have hm := List.get?_mem hj
        rcases List.mem_cons.1 hm with h | h
        · exact Action.noConfusion h
        · exact Action.noConfusion (mem_publishActs h)
      · simp only [hp] at hi hj
        refine @index_lt_of_mid Action
          (Action.statsIncr ("trade" ++ ":" ++ e.symbol.getD "") ::
            publishActs subs ("trade" ++ ":" ++ e.symbol.getD "") Kind.raw)
          (publishActs subs ("vwap:" ++ e.symbol.getD "") Kind.vwapKind ++
            publishActs subs ("cvd:" ++ e.symbol.getD "") Kind.cvdKind)
          (Action.aggUpdate (e.symbol.getD ""))
          (Action.fanout ch cl Kind.raw) (Action.aggUpdate sym) i j hi hj ?_ ?_ ?_ ?_
        · intro hmem
          rcases List.mem_cons.1 hmem with h | h
          · exact Action.noConfusion h
          · exact Action.noConfusion (mem_publishActs h)
        · intro hmem
          exact absurd rfl ((mem_vwap_cvd_tail subs (e.symbol.getD "") hmem).2 sym)
        · intro hmem
          exact absurd rfl ((mem_vwap_cvd_tail subs (e.symbol.getD "") hmem).1 ch cl)
        · intro hcontra
          exact Action.noConfusion hcontra
    · exfalso
      simp only [ht, if_false] at hj
      have hm := List.get?_mem hj
      rcases List.mem_cons.1 hm with h | h
      · exact Action.noConfusion h
      · exact Action.noConfusion (mem_publishActs h)

/-- Witness for the amended C4 at a concrete trade event with one raw
subscriber: the raw fan-out sits at index 1, the aggregation update at
index 2, and 1 < 2. -/
theorem raw_dispatch_before_agg_witness :
    (broadcast (fun c => if c = "trade:ETHUSDT" then some {7} else none)
        (fun _ => AggState.init)
        ⟨some "trade", some "ETHUSDT", some (RawField.num 10), some (RawField.num 1),
          some "sell", some (RawField.num 11), some (RawField.num 9)⟩).2.get? 1 =
        some (Action.fanout "trade:ETHUSDT" {7} Kind.raw) ∧
      (1 : ℕ) < 2 :=
  ⟨by decide,
    raw_dispatch_before_agg (fun c => if c = "trade:ETHUSDT" then some {7} else none)
      (fun _ => AggState.init)
      ⟨some "trade", some "ETHUSDT", some (RawField.num 10), some (RawField.num 1),
        some "sell", some (RawField.num 11), some (RawField.num 9)⟩
      1 2 "ETHUSDT" "trade:ETHUSDT" {7} (by decide) (by decide)⟩

/-! ## Upstream stream client and reconnect loop -/

/-- One inbound frame of `connect_to_go_stream`'s read loop
(lines 162-178): a JSON decode failure (logged and discarded), a batch
envelope (each item replayed in order), or a single event. -/
inductive Frame where
  | decodeFailure
  | batchEnvelope (events : List EventMsg)
  | single (e : EventMsg)
  deriving DecidableEq

/-- Replay the items of a batch envelope in order (lines 168-170). -/
def processEvents (subs : SubsMap) (agg : AggMap) : List EventMsg → AggMap × List Action
  | [] => (agg, [])
  | e :: rest =>
      let r1 := broadcast subs agg e
      let r2 := processEvents subs r1.1 rest
      (r2.1, r1.2 ++ r2.2)

/-- Process one frame (lines 163-178); every per-frame exception is
caught inside the read loop, so a bad frame contributes nothing and the
loop continues. -/
def processFrame (subs : SubsMap) (agg : AggMap) : Frame → AggMap × List Action
  | Frame.decodeFailure => (agg, [])
  | Frame.batchEnvelope es => processEvents subs agg es
  | Frame.single e => broadcast subs agg e

/-- The frames a connection delivers before it ends. -/
def processStream (subs : SubsMap) (agg : AggMap) : List Frame → AggMap × List Action
  | [] => (agg, [])
  | f :: rest =>
      let r1 := processFrame subs agg f
      let r2 := processStream subs r1.1 rest
      (r2.1, r1.2 ++ r2.2)

/-- How one connection attempt of the `while True` loop ends. -/
inductive ConnError where
  | connectionRefused
  | connectionClosed
  deriving DecidableEq

/-- One connection attempt: refused outright, or connected and streamed
some frames until the connection ended — abruptly
(`ConnectionClosedError`) or cleanly. -/
inductive ConnAttempt where
  | refused
  | streamed (frames : List Frame) (abrupt : Bool)
  deriving DecidableEq

/-- One attempt's effects before exception handling: the aggregation map
and actions produced so far, plus the connection error it raised, if
any. -/
def attemptRaw (subs : SubsMap) (agg : AggMap) : ConnAttempt → AggMap × List Action × Option ConnError
  | ConnAttempt.refused => (agg, [], some ConnError.connectionRefused)
  | ConnAttempt.streamed frames abrupt =>
      let r := processStream subs agg frames
      (r.1, r.2, if abrupt then some ConnError.connectionClosed else none)

/-- One `while True` iteration with its `except` clauses (lines
158-185): every connection error is absorbed into a fixed
`asyncio.sleep(5)` before the next attempt; nothing propagates. -/
def runAttempt (subs : SubsMap) (agg : AggMap) (a : ConnAttempt) : AggMap × List Action :=
  match attemptRaw subs agg a with
  | (agg2, acts, some _) => (agg2, acts ++ [Action.sleep 5])
  | (agg2, acts, none) => (agg2, acts)

/-- The reconnect loop over any finite prefix of its endless run: the
function is total in the attempt list, so after every failure the loop
is ready for the next attempt — there is no terminal failure state, and
no error escapes (the result type has no error component). -/
def runClient (subs : SubsMap) : List ConnAttempt → AggMap → AggMap × List Action
  | [], agg => (agg, [])
  | a :: rest, agg =>
      let r1 := runAttempt subs agg a
      let r2 := runClient subs rest r1.1
      (r2.1, r1.2 ++ r2.2)

/-- C8: over any finite sequence of failed connection attempts —
refusals or abrupt closures that delivered no events — the client emits
exactly one fixed 5-second sleep per failure and then retries, the
aggregation state is left completely unchanged, and the loop neither
terminates nor propagates an error (`runClient` is total and
error-free for every such sequence, of any length). -/
theorem reconnect_retries_forever (subs : SubsMap) (attempts : List ConnAttempt)
    (agg : AggMap)
    (h : ∀ a ∈ attempts, a = ConnAttempt.refused ∨ a = ConnAttempt.streamed [] true) :
    runClient subs attempts agg = (agg, List.replicate attempts.length (Action.sleep 5)) := by
  induction attempts generalizing agg with
  | nil => simp [runClient]
  | cons a rest ih =>
      have ha := h a (List.mem_cons_self a rest)
      have hrest : ∀ b ∈ rest, b = ConnAttempt.refused ∨ b = ConnAttempt.streamed [] true :=
        fun b hb => h b (List.mem_cons_of_mem a hb)
      rcases ha with ha | ha <;> subst ha <;>
        simp [runClient, runAttempt, attemptRaw, processStream, ih agg hrest,
          List.replicate_succ]

/-- Witness for C8: two refused attempts and one abrupt closure produce
three 5-second sleeps and leave the aggregation map untouched. -/
theorem reconnect_retries_forever_witness :
    runClient (fun _ => none)
        [ConnAttempt.refused, ConnAttempt.streamed [] true, ConnAttempt.refused]
        (fun _ => AggState.init) =
      ((fun _ => AggState.init), List.replicate 3 (Action.sleep 5)) :=
  reconnect_retries_forever (fun _ => none)
    [ConnAttempt.refused, ConnAttempt.streamed [] true, ConnAttempt.refused]
    (fun _ => AggState.init)
    (by intro a ha; fin_cases ha <;> simp)

end PulseIntel
